import Mathlib

/-
Verification of the gotostudy domain service layer.

The definitions below are a shallow embedding of the Go sources:
  core/domain/user.go, core/domain/task.go          (entities)
  core/ports/user_repository.go, task_repository.go (ports)
  core/services/user_service.go, task_service.go    (services)
  internal/utils/utils.go                           (email checks)
  adapters/inbound/http/helpers/user_helpers.go     (ParseUpdateFields)

Repository calls are modelled by an in-memory store (a list of records),
following the in-source repository implementations: lookup returns the
first record with the given key and a NotFound error when none matches,
save appends, update replaces fields of the first matching record.
UUIDs are Nat (0 stands for uuid.Nil), time.Time is Nat.
Go functions returning (value, error) become Except / Option-valued
functions; a Go panic is modelled by Option.none.
-/

namespace GoToStudy

/-- UUIDs, modelled as naturals; 0 plays the role of uuid.Nil. -/
abbrev UUID := Nat

/-- uuid.Nil, the zero UUID. -/
def nilUUID : UUID := 0

/-- time.Time, modelled as a natural timestamp. -/
abbrev Time := Nat

/-- The sentinel errors of package core (core/errors.go), together with the
wrap errors used by the services (ErrSaveUser, ErrUpdateUser, ...) and one
constructor standing for an opaque storage failure. -/
inductive Err where
  | userNotFound
  | userAlreadyExists
  | emailAlreadyExists
  | invalidUpdateField
  | noTasksFound
  | invalidTaskID
  | taskNotFound
  | invalidEmail
  | saveUser
  | updateUser
  | findAllUsers
  | deleteUser
  | repoFailure
deriving DecidableEq, Repr

/-- domain.Task (core/domain/task.go). -/
structure Task where
  id : UUID
  title : String
  descr : String
  completed : Bool
  createdAt : Time
  updatedAt : Time
  userID : UUID
deriving DecidableEq, Repr

/-- domain.User (core/domain/user.go). -/
structure User where
  id : UUID
  username : String
  email : String
  createdAt : Time
  updatedAt : Time
  tasks : List Task
deriving DecidableEq, Repr

/-- A value of a Go map[string]any entry: a string, a time stamp, or some
other dynamic value. -/
inductive FieldVal where
  | str (s : String)
  | time (t : Time)
  | other
deriving DecidableEq, Repr

/-- A Go map[string]any payload, as an association list with unique keys. -/
abbrev Fields := List (String × FieldVal)

/-- Go map read fields[k]: the value bound to the first occurrence of k. -/
def fieldsGet : Fields → String → Option FieldVal
  | [], _ => none
  | (k, v) :: rest, key => if k = key then some v else fieldsGet rest key

/-- Go map write fields[k] = v: replace the binding of k, or add one. -/
def fieldsSet : Fields → String → FieldVal → Fields
  | [], key, v => [(key, v)]
  | (k, w) :: rest, key, v =>
    if k = key then (key, v) :: rest else (k, w) :: fieldsSet rest key v

/-- True exactly when an optional dynamic value is a string: the success
condition of the Go type assertion v.(string). -/
def isStrVal : Option FieldVal → Bool
  | some (.str _) => true
  | _ => false

/- ---------------- in-memory user repository (ports.UserRepository) ----- -/

/-- UserRepository.FindByID: first user with the id, else ErrUserNotFound. -/
def usersFindByID : List User → UUID → Except Err User
  | [], _ => .error .userNotFound
  | u :: rest, id => if u.id = id then .ok u else usersFindByID rest id

/-- UserRepository.FindByEmail: first user with the email, else
ErrUserNotFound (mock repository in user_service_test.go; the port contract
findByEmail -> User | NotFound). -/
def usersFindByEmail : List User → String → Except Err User
  | [], _ => .error .userNotFound
  | u :: rest, email => if u.email = email then .ok u else usersFindByEmail rest email

/-- UserRepository.Save: append the record to the store. -/
def usersSave (users : List User) (u : User) : List User := users ++ [u]

/-- UserRepository.Update: replace the first record with the id, else
ErrUserNotFound. -/
def usersUpdate : List User → UUID → User → Except Err (List User)
  | [], _, _ => .error .userNotFound
  | u :: rest, id, newU =>
    if u.id = id then .ok (newU :: rest)
    else
      match usersUpdate rest id newU with
      | .ok rest2 => .ok (u :: rest2)
      | .error e => .error e

/-- Apply a field map to a user record: set email and username when they are
bound to strings, ignore everything else (mock UpdateFields in
user_service_test.go). -/
def applyUserFields (u : User) (fs : Fields) : User :=
  let u1 := match fieldsGet fs "email" with
    | some (.str e) => { u with email := e }
    | _ => u
  match fieldsGet fs "username" with
  | some (.str n) => { u1 with username := n }
  | _ => u1

/-- UserRepository.UpdateFields: apply the field map to the first record
with the id and return the updated record, else ErrUserNotFound. -/
def usersUpdateFields : List User → UUID → Fields → Except Err (User × List User)
  | [], _, _ => .error .userNotFound
  | u :: rest, id, fs =>
    if u.id = id then
      let u2 := applyUserFields u fs
      .ok (u2, u2 :: rest)
    else
      match usersUpdateFields rest id fs with
      | .ok (u2, rest2) => .ok (u2, u :: rest2)
      | .error e => .error e

/- ---------------- in-memory task repository (ports.TaskRepository) ----- -/

/-- TaskRepository.FindTaskByID: first task with the task id, else
ErrTaskNotFound. The lookup ignores the owning user, as every in-source
implementation does (the mock keys tasks by task id alone and the postgres
adapter queries WHERE id = taskID only). -/
def tasksFindTaskByID : List Task → UUID → Except Err Task
  | [], _ => .error .taskNotFound
  | t :: rest, id => if t.id = id then .ok t else tasksFindTaskByID rest id

/-- TaskRepository.FindUserTasks: the tasks owned by the user (postgres
adapter: WHERE user_id = userID; returns the empty list, not an error,
when the user owns nothing). -/
def tasksFindUserTasks (tasks : List Task) (userID : UUID) : List Task :=
  tasks.filter (fun t => t.userID = userID)

/-- TaskRepository.Save: append the record to the store. -/
def tasksSave (tasks : List Task) (t : Task) : List Task := tasks ++ [t]

/-- TaskRepository.Update: copy Title, Description, Completed and UpdatedAt
from the argument onto the first stored task with the id (postgres adapter
Update and the mock Update both copy exactly these four fields), else
ErrTaskNotFound. -/
def tasksUpdate : List Task → UUID → Task → Except Err (List Task)
  | [], _, _ => .error .taskNotFound
  | t :: rest, id, upd =>
    if t.id = id then
      .ok ({ t with title := upd.title, descr := upd.descr,
                    completed := upd.completed, updatedAt := upd.updatedAt } :: rest)
    else
      match tasksUpdate rest id upd with
      | .ok rest2 => .ok (t :: rest2)
      | .error e => .error e

/- ---------------- internal/utils/utils.go ------------------------------ -/

/-- Character class [a-zA-Z0-9._%+-] of the email regex. -/
def isLocalChar (c : Char) : Bool :=
  c.isAlpha || c.isDigit || c = '.' || c = '_' || c = '%' || c = '+' || c = '-'

/-- Character class [a-zA-Z0-9.-] of the email regex. -/
def isDomainChar (c : Char) : Bool :=
  c.isAlpha || c.isDigit || c = '.' || c = '-'

/-- Split a character list at the first occurrence of c, dropping c. -/
def splitAtFirst (c : Char) : List Char → Option (List Char × List Char)
  | [] => none
  | x :: xs =>
    if x = c then some ([], xs)
    else
      match splitAtFirst c xs with
      | some (l, r) => some (x :: l, r)
      | none => none

/-- Matching of the anchored regex
  ^[a-zA-Z0-9._%+-]+@[a-zA-Z0-9.-]+\.[a-zA-Z]\x7b2,\x7d$
from utils.IsEmailValid. A string matches exactly when it decomposes as
localPart ++ "@" ++ dom ++ "." ++ tld with localPart nonempty over the
local class, dom nonempty over the domain class, and tld at least two
letters. Neither class contains the at sign and tld contains no dot, so
the split at the first at sign and at the last dot is the only candidate
decomposition. -/
def matchesEmailRegex (s : String) : Bool :=
  match splitAtFirst '@' s.toList with
  | none => false
  | some (localPart, rest) =>
    match splitAtFirst '.' rest.reverse with
    | none => false
    | some (tldRev, domRev) =>
      let tld := tldRev.reverse
      let dom := domRev.reverse
      (!localPart.isEmpty) && localPart.all isLocalChar &&
      (!dom.isEmpty) && dom.all isDomainChar &&
      tld.all (fun c => c.isAlpha) && decide (tld.length ≥ 2)

/-- utils.IsEmailValid: none on a valid address, some ErrInvalidEmail
otherwise (Go returns a nil or non-nil error). -/
def IsEmailValid (email : String) : Option Err :=
  if matchesEmailRegex email then none else some .invalidEmail

/-- utils.IsEmailInUse (utils.go lines 22-39): look the email up; treat
ErrEmailAlreadyExists and ErrUserNotFound from the lookup as "not in use",
propagate any other lookup error; when a user is found, report "not in
use" exactly when the exclude id is non-nil and equals the found id. -/
def IsEmailInUse (users : List User) (email : String) (excludeID : UUID) :
    Except Err Bool :=
  match usersFindByEmail users email with
  | .error e =>
    if e = .emailAlreadyExists then .ok false
    else if e = .userNotFound then .ok false
    else .error e
  | .ok existing =>
    if excludeID ≠ nilUUID ∧ existing.id = excludeID then .ok false
    else .ok true

/- ---------------- adapters/inbound/http/helpers/user_helpers.go -------- -/

/-- The allow-list of ParseUpdateFields: only username and email. -/
def validFieldKey (k : String) : Bool := k = "username" || k = "email"

/-- The key-validation loop of ParseUpdateFields: error on the first key
outside the allow-list. -/
def checkFields : Fields → Except String Unit
  | [] => .ok ()
  | (k, _) :: rest =>
    if validFieldKey k then checkFields rest
    else .error ("invalid field: " ++ k)

/-- helpers.ParseUpdateFields (user_helpers.go lines 67-86), after the JSON
payload has been bound to a field map: reject the whole map when any key
is outside the allow-list, otherwise return it unchanged. -/
def ParseUpdateFields (updates : Fields) : Except String Fields :=
  match checkFields updates with
  | .error e => .error e
  | .ok () => .ok updates

/- ---------------- core/services/user_service.go ------------------------ -/

/-- UserService.RegisterUser (user_service.go lines 43-68): validate the
email syntax, check that no user holds the email (exclude id uuid.Nil),
then assign a fresh id and both timestamps and save. The in-memory save
always succeeds, so the ErrSaveUser branch is unreachable here. -/
def RegisterUser (users : List User) (freshID : UUID) (now : Time) (user : User) :
    Except Err User × List User :=
  match IsEmailValid user.email with
  | some e => (.error e, users)
  | none =>
    match IsEmailInUse users user.email nilUUID with
    | .error e => (.error e, users)
    | .ok true => (.error .emailAlreadyExists, users)
    | .ok false =>
      let u := { user with id := freshID, createdAt := now, updatedAt := now }
      (.ok u, usersSave users u)

/-- UserService.GetUserByID (user_service.go lines 92-99), as a function of
the (user, err) pair the repository FindByID call returned: when err is
ErrUserNotFound, propagate it; in every other case, error included, return
the user pointer with a nil error. -/
def GetUserByID (findRes : Option User × Option Err) : Option User × Option Err :=
  if findRes.2 = some Err.userNotFound then (none, findRes.2)
  else (findRes.1, none)

/-- UserService.UpdateUser (user_service.go lines 105-128): validate email
syntax (ErrInvalidEmail), check uniqueness excluding the updated id, stamp
the id and updatedAt, delegate to the repository Update and wrap its
failure as ErrUpdateUser. -/
def UpdateUser (users : List User) (id : UUID) (user : User) (now : Time) :
    Except Err Unit × List User :=
  match IsEmailValid user.email with
  | some _ => (.error .invalidEmail, users)
  | none =>
    match IsEmailInUse users user.email id with
    | .error e => (.error e, users)
    | .ok true => (.error .emailAlreadyExists, users)
    | .ok false =>
      let u := { user with id := id, updatedAt := now }
      match usersUpdate users id u with
      | .error _ => (.error .updateUser, users)
      | .ok users2 => (.ok (), users2)

/-- UserService.UpdateUserFields (user_service.go lines 135-161). Line 137
evaluates the unconditional type assertion on the email entry of the map:
when the entry is absent or not a string the call panics, modelled as
Option.none. Otherwise: invalid syntax gives ErrInvalidEmail; an
IsEmailInUse failure OR a positive in-use answer both give
ErrEmailAlreadyExists (lines 143-147); then updated_at is written into the
map and the repository UpdateFields result is returned, its failure
wrapped as ErrUpdateUser. The service never validates the map keys. -/
def UpdateUserFields (users : List User) (id : UUID) (fields : Fields) (now : Time) :
    Option (Except Err User × List User) :=
  match fieldsGet fields "email" with
  | some (.str email) =>
    some (
      match IsEmailValid email with
      | some _ => (.error .invalidEmail, users)
      | none =>
        match IsEmailInUse users email id with
        | .error _ => (.error .emailAlreadyExists, users)
        | .ok true => (.error .emailAlreadyExists, users)
        | .ok false =>
          let fs := fieldsSet fields "updated_at" (.time now)
          match usersUpdateFields users id fs with
          | .error _ => (.error .updateUser, users)
          | .ok (u, users2) => (.ok u, users2))
  | _ => none

/- ---------------- core/services/task_service.go ------------------------ -/

/-- TaskService.userExists (task_service.go lines 151-162): true exactly
when the repository FindByID returns a user without error. -/
def userExists (users : List User) (id : UUID) : Bool :=
  match usersFindByID users id with
  | .error _ => false
  | .ok _ => true

/-- TaskService.taskExists (task_service.go lines 166-177): return the
repository lookup result; the nil-task branch is unreachable in the
in-memory model, where a successful lookup always carries a record. The
userID argument is forwarded to the repository, which ignores it. -/
def taskExists (tasks : List Task) (userID taskID : UUID) : Except Err Task :=
  match tasksFindTaskByID tasks taskID with
  | .error e => .error e
  | .ok task => .ok task

/-- TaskService.CreateTask (task_service.go lines 41-56): fail with
ErrUserNotFound before any save when the user does not exist; otherwise
stamp id, owner and both timestamps and save. -/
def CreateTask (users : List User) (tasks : List Task) (userID freshID : UUID)
    (now : Time) (task : Task) : Except Err Unit × List Task :=
  if !(userExists users userID) then (.error .userNotFound, tasks)
  else
    let t := { task with id := freshID, userID := userID,
                         createdAt := now, updatedAt := now }
    (.ok (), tasksSave tasks t)

/-- TaskService.FindUserTasks (task_service.go lines 61-76): ErrUserNotFound
when the user does not exist, ErrNoTasksFound when the repository returns
zero tasks, the task list otherwise. -/
def FindUserTasks (users : List User) (tasks : List Task) (userID : UUID) :
    Except Err (List Task) :=
  if !(userExists users userID) then .error .userNotFound
  else
    let ts := tasksFindUserTasks tasks userID
    if ts.length = 0 then .error .noTasksFound
    else .ok ts

/-- TaskService.FindTaskByID (task_service.go lines 89-96): exactly the
taskExists lookup; there is no nil-identifier check and no user-existence
check on this path. -/
def FindTaskByID (tasks : List Task) (userID taskID : UUID) : Except Err Task :=
  taskExists tasks userID taskID

/-- TaskService.UpdateTask (task_service.go lines 101-126): ErrInvalidTaskID
on the nil task id, ErrUserNotFound when the user does not exist, the
taskExists error when the task is absent; otherwise copy title,
description and completed from the replacement onto the existing record
(updatedAt is not stamped) and delegate to the repository Update. -/
def UpdateTask (users : List User) (tasks : List Task) (userID taskID : UUID)
    (task : Task) : Except Err Unit × List Task :=
  if taskID = nilUUID then (.error .invalidTaskID, tasks)
  else if !(userExists users userID) then (.error .userNotFound, tasks)
  else
    match taskExists tasks userID taskID with
    | .error e => (.error e, tasks)
    | .ok existing =>
      let upd := { existing with title := task.title, descr := task.descr,
                                 completed := task.completed }
      match tasksUpdate tasks taskID upd with
      | .error e => (.error e, tasks)
      | .ok tasks2 => (.ok (), tasks2)

/- ---------------- concrete sample records ------------------------------ -/

/-- A stored user for concrete instances. -/
def sampleUser : User :=
  { id := 1, username := "alice", email := "alice@example.com",
    createdAt := 0, updatedAt := 0, tasks := [] }

/-- A stored task owned by sampleUser. -/
def sampleTask : Task :=
  { id := 2, title := "study", descr := "lean", completed := false,
    createdAt := 10, updatedAt := 20, userID := 1 }

/-- A second stored task owned by sampleUser. -/
def sampleTask2 : Task :=
  { id := 3, title := "read", descr := "book", completed := false,
    createdAt := 4, updatedAt := 6, userID := 1 }

/-- A replacement payload for task updates. -/
def sampleRepl : Task :=
  { id := 0, title := "study more", descr := "lean more", completed := true,
    createdAt := 0, updatedAt := 0, userID := 0 }

/-- A registration candidate. -/
def regCandidate : User :=
  { id := 0, username := "alice", email := "alice@example.com",
    createdAt := 0, updatedAt := 0, tasks := [] }

/- ---------------- repository lemmas ------------------------------------ -/

/-- FindByEmail fails with ErrUserNotFound when no stored user has the
email. -/
theorem usersFindByEmail_not_found (users : List User) (email : String)
    (h : ∀ u ∈ users, u.email ≠ email) :
    usersFindByEmail users email = .error .userNotFound := by
  induction users with
  | nil => rfl
  | cons u rest ih =>
    have hu : u.email ≠ email := h u (List.mem_cons_self u rest)
    simp only [usersFindByEmail, if_neg hu]
    exact ih (fun v hv => h v (List.mem_cons_of_mem u hv))

/-- FindByEmail returns the user itself when it is stored and no other
stored user shares its email. -/
theorem usersFindByEmail_self (users : List User) (u : User)
    (hmem : u ∈ users) (huniq : ∀ v ∈ users, v.email = u.email → v = u) :
    usersFindByEmail users u.email = .ok u := by
  induction users with
  | nil => cases hmem
  | cons w rest ih =>
    by_cases hw : w.email = u.email
    · have hwu : w = u := huniq w (List.mem_cons_self w rest) hw
      subst hwu
      simp [usersFindByEmail]
    · have hmem2 : u ∈ rest := by
        cases hmem with
        | head => exact absurd rfl hw
        | tail _ h2 => exact h2
      simp only [usersFindByEmail, if_neg hw]
      exact ih hmem2 (fun v hv => huniq v (List.mem_cons_of_mem w hv))

/-- FindByEmail succeeds when some stored user has the email. -/
theorem usersFindByEmail_found (users : List User) (email : String)
    (h : ∃ u ∈ users, u.email = email) :
    ∃ u, usersFindByEmail users email = .ok u := by
  induction users with
  | nil => obtain ⟨u, hu, _⟩ := h; cases hu
  | cons w rest ih =>
    by_cases hw : w.email = email
    · exact ⟨w, by simp only [usersFindByEmail, if_pos hw]⟩
    · obtain ⟨u, hu, he⟩ := h
      have hu2 : u ∈ rest := by
        cases hu with
        | head => exact absurd he hw
        | tail _ h2 => exact h2
      obtain ⟨v, hv⟩ := ih ⟨u, hu2, he⟩
      refine ⟨v, ?_⟩
      simp only [usersFindByEmail, if_neg hw]
      exact hv

/-- FindByID fails with ErrUserNotFound when no stored user has the id. -/
theorem usersFindByID_not_found (users : List User) (id : UUID)
    (h : ∀ u ∈ users, u.id ≠ id) :
    usersFindByID users id = .error .userNotFound := by
  induction users with
  | nil => rfl
  | cons u rest ih =>
    have hu : u.id ≠ id := h u (List.mem_cons_self u rest)
    simp only [usersFindByID, if_neg hu]
    exact ih (fun v hv => h v (List.mem_cons_of_mem u hv))

/-- FindByID succeeds when some stored user has the id. -/
theorem usersFindByID_found (users : List User) (id : UUID)
    (h : ∃ u ∈ users, u.id = id) :
    ∃ u, usersFindByID users id = .ok u := by
  induction users with
  | nil => obtain ⟨u, hu, _⟩ := h; cases hu
  | cons w rest ih =>
    by_cases hw : w.id = id
    · exact ⟨w, by simp only [usersFindByID, if_pos hw]⟩
    · obtain ⟨u, hu, he⟩ := h
      have hu2 : u ∈ rest := by
        cases hu with
        | head => exact absurd he hw
        | tail _ h2 => exact h2
      obtain ⟨v, hv⟩ := ih ⟨u, hu2, he⟩
      refine ⟨v, ?_⟩
      simp only [usersFindByID, if_neg hw]
      exact hv

/-- The user-existence check of the task service is false when no stored
user has the id. -/
theorem userExists_false (users : List User) (id : UUID)
    (h : ∀ u ∈ users, u.id ≠ id) : userExists users id = false := by
  simp [userExists, usersFindByID_not_found users id h]

/-- The user-existence check of the task service is true when some stored
user has the id. -/
theorem userExists_true (users : List User) (id : UUID)
    (h : ∃ u ∈ users, u.id = id) : userExists users id = true := by
  obtain ⟨u, hu⟩ := usersFindByID_found users id h
  simp [userExists, hu]

/-- FindTaskByID fails with ErrTaskNotFound when no stored task has the
id. -/
theorem tasksFindTaskByID_not_found (tasks : List Task) (taskID : UUID)
    (h : ∀ t ∈ tasks, t.id ≠ taskID) :
    tasksFindTaskByID tasks taskID = .error .taskNotFound := by
  induction tasks with
  | nil => rfl
  | cons t rest ih =>
    have ht : t.id ≠ taskID := h t (List.mem_cons_self t rest)
    simp only [tasksFindTaskByID, if_neg ht]
    exact ih (fun v hv => h v (List.mem_cons_of_mem t hv))

/-- FindTaskByID succeeds on the first stored task with the id when one
exists, whatever user owns it. -/
theorem tasksFindTaskByID_found (tasks : List Task) (taskID : UUID)
    (h : ∃ t ∈ tasks, t.id = taskID) :
    ∃ t2, t2 ∈ tasks ∧ t2.id = taskID ∧ tasksFindTaskByID tasks taskID = .ok t2 := by
  induction tasks with
  | nil => obtain ⟨t, ht, _⟩ := h; cases ht
  | cons w rest ih =>
    by_cases hw : w.id = taskID
    · refine ⟨w, List.mem_cons_self w rest, hw, ?_⟩
      simp only [tasksFindTaskByID, if_pos hw]
    · obtain ⟨t, ht, he⟩ := h
      have ht2 : t ∈ rest := by
        cases ht with
        | head => exact absurd he hw
        | tail _ h2 => exact h2
      obtain ⟨t2, hmem, hid, hfind⟩ := ih ⟨t, ht2, he⟩
      refine ⟨t2, List.mem_cons_of_mem w hmem, hid, ?_⟩
      simp only [tasksFindTaskByID, if_neg hw]
      exact hfind

/-- The repository task lookup has exactly two outcomes: ErrTaskNotFound
or a stored record; no other error is ever produced. -/
theorem tasksFindTaskByID_cases (tasks : List Task) (taskID : UUID) :
    tasksFindTaskByID tasks taskID = .error .taskNotFound ∨
    ∃ t, tasksFindTaskByID tasks taskID = .ok t := by
  induction tasks with
  | nil => exact Or.inl rfl
  | cons w rest ih =>
    by_cases hw : w.id = taskID
    · refine Or.inr ⟨w, ?_⟩
      simp only [tasksFindTaskByID, if_pos hw]
    · cases ih with
      | inl h =>
        refine Or.inl ?_
        simp only [tasksFindTaskByID, if_neg hw]
        exact h
      | inr h =>
        obtain ⟨t, ht⟩ := h
        refine Or.inr ⟨t, ?_⟩
        simp only [tasksFindTaskByID, if_neg hw]
        exact ht

/-- The service FindTaskByID returns exactly what the repository lookup
returns: taskExists adds no behavior in the model. -/
theorem findTaskByID_eq_repo (tasks : List Task) (userID taskID : UUID) :
    FindTaskByID tasks userID taskID = tasksFindTaskByID tasks taskID := by
  simp only [FindTaskByID, taskExists]
  cases tasksFindTaskByID tasks taskID with
  | error e => rfl
  | ok t => rfl

/-- When FindTaskByID returns a stored record, the repository Update
succeeds, afterwards FindTaskByID returns that record with title,
description, completed and updatedAt copied from the argument, and every
task in the new store is either an unchanged old record or that updated
record. -/
theorem tasksUpdate_of_find (tasks : List Task) (taskID : UUID) (old upd : Task)
    (h : tasksFindTaskByID tasks taskID = .ok old) :
    ∃ tasks2, tasksUpdate tasks taskID upd = .ok tasks2 ∧
      tasksFindTaskByID tasks2 taskID = .ok
        { old with title := upd.title, descr := upd.descr,
                   completed := upd.completed, updatedAt := upd.updatedAt } ∧
      ∀ t ∈ tasks2, t ∈ tasks ∨
        t = { old with title := upd.title, descr := upd.descr,
                       completed := upd.completed, updatedAt := upd.updatedAt } := by
  induction tasks with
  | nil => exact absurd h (by simp [tasksFindTaskByID])
  | cons t rest ih =>
    by_cases ht : t.id = taskID
    · have hto : t = old := by
        simp only [tasksFindTaskByID, if_pos ht] at h
        exact Except.ok.inj h
      subst hto
      refine ⟨{ t with title := upd.title, descr := upd.descr,
                       completed := upd.completed, updatedAt := upd.updatedAt } :: rest,
              ?_, ?_, ?_⟩
      · simp only [tasksUpdate, if_pos ht]
      · simp [tasksFindTaskByID, ht]
      · intro x hx
        cases hx with
        | head => exact Or.inr rfl
        | tail _ h2 => exact Or.inl (List.mem_cons_of_mem t h2)
    · have h2 : tasksFindTaskByID rest taskID = .ok old := by
        simpa only [tasksFindTaskByID, if_neg ht] using h
      obtain ⟨rest2, hu, hf, hframe⟩ := ih h2
      refine ⟨t :: rest2, ?_, ?_, ?_⟩
      · simp only [tasksUpdate, if_neg ht, hu]
      · simp only [tasksFindTaskByID, if_neg ht]
        exact hf
      · intro x hx
        cases hx with
        | head => exact Or.inl (List.mem_cons_self t rest)
        | tail _ h3 =>
          cases hframe x h3 with
          | inl h4 => exact Or.inl (List.mem_cons_of_mem t h4)
          | inr h4 => exact Or.inr h4

/- ---------------- claims ----------------------------------------------- -/

/-- C1 counterexample: at the payload containing only the unrecognized key
"role", UserService.UpdateUserFields neither returns an InvalidInput error
nor leaves a well-defined result: the unconditional type assertion on the
absent email entry panics, modelled as none, so the claimed
InvalidInput rejection by the service does not happen. -/
theorem c1_counterexample :
    UpdateUserFields [sampleUser] 1 [("role", FieldVal.str "admin")] 30 = none := rfl

/-- C1 (amended): the allow-list rejection lives in the HTTP helper
ParseUpdateFields, not in the service: every field map containing at least
one key outside the set containing username and email is rejected
wholesale with an error before any service or repository call. -/
theorem c1_parse_update_fields_rejects_invalid_keys (updates : Fields)
    (h : ∃ kv ∈ updates, validFieldKey kv.1 = false) :
    ∃ msg, ParseUpdateFields updates = Except.error msg := by
  suffices hs : ∃ msg, checkFields updates = Except.error msg by
    obtain ⟨msg, hm⟩ := hs
    exact ⟨msg, by simp only [ParseUpdateFields, hm]⟩
  induction updates with
  | nil => obtain ⟨kv, hkv, _⟩ := h; cases hkv
  | cons kv rest ih =>
    by_cases hk : validFieldKey kv.1 = true
    · obtain ⟨kv2, hkv2, hbad⟩ := h
      have hkv2r : kv2 ∈ rest := by
        cases hkv2 with
        | head => rw [hk] at hbad; cases hbad
        | tail _ h2 => exact h2
      obtain ⟨msg, hm⟩ := ih ⟨kv2, hkv2r, hbad⟩
      refine ⟨msg, ?_⟩
      cases kv with
      | mk k v =>
        simp only [checkFields]
        rw [if_pos hk]
        exact hm
    · cases kv with
      | mk k v =>
        refine ⟨"invalid field: " ++ k, ?_⟩
        simp only [checkFields]
        rw [if_neg hk]

/-- Witness for C1: the payload binding only the key "role" is rejected by
ParseUpdateFields. -/
theorem c1_witness :
    ∃ msg, ParseUpdateFields [("role", FieldVal.str "admin")] = Except.error msg :=
  c1_parse_update_fields_rejects_invalid_keys _
    ⟨("role", FieldVal.str "admin"), List.mem_singleton.mpr rfl, by decide⟩

/-- C2: whenever the field map has no email entry bound to a string, the
unconditional type assertion on line 137 of user_service.go panics, so
UpdateUserFields yields no defined result at all (none); in particular the
specified error branch is unreachable for such payloads. -/
theorem c2_update_user_fields_panics_without_string_email
    (users : List User) (id : UUID) (fields : Fields) (now : Time)
    (h : isStrVal (fieldsGet fields "email") = false) :
    UpdateUserFields users id fields now = none := by
  cases hf : fieldsGet fields "email" with
  | none => simp only [UpdateUserFields, hf]
  | some v =>
    cases v with
    | str s => rw [hf] at h; simp [isStrVal] at h
    | time t => simp only [UpdateUserFields, hf]
    | other => simp only [UpdateUserFields, hf]

/-- Witness for C2: a payload binding only a username string panics. -/
theorem c2_witness :
    isStrVal (fieldsGet [("username", FieldVal.str "bob")] "email") = false ∧
    UpdateUserFields [] 1 [("username", FieldVal.str "bob")] 5 = none :=
  ⟨rfl, c2_update_user_fields_panics_without_string_email [] 1 _ 5 rfl⟩

/-- C3: UserService.GetUserByID propagates ErrUserNotFound, but any other
repository failure is swallowed: the service returns the nil user with a
nil error, a successful result, instead of surfacing the failure. The
first conjunct shows the NotFound half of the claim holding, the second
exhibits the bug refuting the other half. -/
theorem c3_get_user_by_id_swallows_repository_failure :
    GetUserByID (none, some Err.userNotFound) = (none, some Err.userNotFound) ∧
    GetUserByID (none, some Err.repoFailure) = (none, none) := ⟨rfl, rfl⟩

/-- C4: a successful TaskService.UpdateTask does not advance updatedAt.
At a stored task with updatedAt 20, the update succeeds and the persisted
record still has updatedAt 20 (UpdateTask never stamps it and the
repository Update copies updatedAt from the record the service passed,
which is the previously stored one), refuting the strict increase. -/
theorem c4_update_task_does_not_advance_updated_at :
    UpdateTask [sampleUser] [sampleTask] 1 2 sampleRepl =
      (Except.ok (),
       [{ sampleTask with title := "study more", descr := "lean more",
                          completed := true }]) ∧
    ({ sampleTask with title := "study more", descr := "lean more",
                       completed := true } : Task).updatedAt
      = sampleTask.updatedAt := ⟨rfl, rfl⟩

/-- C5 counterexample, refuting both halves of the claim at concrete
inputs. First: with a non-empty store and the nil task identifier,
TaskService.FindTaskByID fails with ErrTaskNotFound, not with the
ErrInvalidTaskID rejection the claim requires for the nil identifier.
Second: the stored task with id 2 is owned by user 1, yet the lookup
under the different user 7 returns it successfully instead of failing
NotFound for a task that does not exist under that user. -/
theorem c5_counterexample :
    (FindTaskByID [sampleTask] 7 nilUUID = Except.error Err.taskNotFound ∧
     Err.taskNotFound ≠ Err.invalidTaskID) ∧
    (FindTaskByID [sampleTask] 7 2 = Except.ok sampleTask ∧
     sampleTask.userID ≠ 7) := ⟨⟨rfl, by decide⟩, ⟨rfl, by decide⟩⟩

/-- C5 (amended): FindTaskByID performs no nil-identifier check (unlike
UpdateTask and DeleteTask) and its lookup ignores the owning user: for
every userId and every taskId, the nil identifier included, it fails
with ErrTaskNotFound exactly when no stored task has that identifier,
it returns a stored task with that identifier when one exists whatever
user owns it, and it never fails with ErrInvalidTaskID. -/
theorem c5_find_task_by_id_characterization (tasks : List Task) (userID taskID : UUID) :
    ((∀ t ∈ tasks, t.id ≠ taskID) ↔
       FindTaskByID tasks userID taskID = Except.error Err.taskNotFound) ∧
    ((∃ t ∈ tasks, t.id = taskID) →
       ∃ t2, t2 ∈ tasks ∧ t2.id = taskID ∧
         FindTaskByID tasks userID taskID = Except.ok t2) ∧
    FindTaskByID tasks userID taskID ≠ Except.error Err.invalidTaskID := by
  refine ⟨⟨?_, ?_⟩, ?_, ?_⟩
  · intro h
    rw [findTaskByID_eq_repo]
    exact tasksFindTaskByID_not_found tasks taskID h
  · intro hres t ht hid
    obtain ⟨t2, _, _, hfind⟩ := tasksFindTaskByID_found tasks taskID ⟨t, ht, hid⟩
    rw [findTaskByID_eq_repo, hfind] at hres
    exact Except.noConfusion hres
  · intro hex
    obtain ⟨t2, hmem, hid, hfind⟩ := tasksFindTaskByID_found tasks taskID hex
    refine ⟨t2, hmem, hid, ?_⟩
    rw [findTaskByID_eq_repo]
    exact hfind
  · rw [findTaskByID_eq_repo]
    cases tasksFindTaskByID_cases tasks taskID with
    | inl h => rw [h]; simp
    | inr h => obtain ⟨t, ht⟩ := h; rw [ht]; simp

/-- Witness for C5: over a store holding one task (id 2, owner 1), the nil
identifier fails NotFound and is no InvalidTaskID failure, and the lookup
of id 2 under the unrelated user 9 returns the stored task. -/
theorem c5_witness :
    FindTaskByID [sampleTask] 1 nilUUID = Except.error Err.taskNotFound ∧
    (∃ t2, t2 ∈ [sampleTask] ∧ t2.id = 2 ∧
       FindTaskByID [sampleTask] 9 2 = Except.ok t2) ∧
    FindTaskByID [sampleTask] 1 nilUUID ≠ Except.error Err.invalidTaskID :=
  ⟨(c5_find_task_by_id_characterization [sampleTask] 1 nilUUID).1.mp (by decide),
   (c5_find_task_by_id_characterization [sampleTask] 9 2).2.1
     ⟨sampleTask, List.mem_singleton.mpr rfl, rfl⟩,
   (c5_find_task_by_id_characterization [sampleTask] 1 nilUUID).2.2⟩

/-- C6: for a candidate with valid email syntax, RegisterUser succeeds and
persists exactly one new record when no stored user holds the email, and
fails with ErrEmailAlreadyExists, persisting nothing, when some stored
user already holds it. -/
theorem c6_register_user_unique_email
    (users : List User) (freshID : UUID) (now : Time) (user : User)
    (hvalid : IsEmailValid user.email = none) :
    ((∀ u ∈ users, u.email ≠ user.email) →
      RegisterUser users freshID now user =
        (Except.ok { user with id := freshID, createdAt := now, updatedAt := now },
         users ++ [{ user with id := freshID, createdAt := now, updatedAt := now }])) ∧
    ((∃ u ∈ users, u.email = user.email) →
      RegisterUser users freshID now user = (Except.error Err.emailAlreadyExists, users)) := by
  constructor
  · intro hfree
    have hfind := usersFindByEmail_not_found users user.email hfree
    simp [RegisterUser, hvalid, IsEmailInUse, hfind, usersSave]
  · intro hex
    obtain ⟨w, hw⟩ := usersFindByEmail_found users user.email hex
    simp [RegisterUser, hvalid, IsEmailInUse, hw, nilUUID]

/-- Witness for C6: registering alice on an empty store succeeds; a second
registration with the same email fails with ErrEmailAlreadyExists and
leaves the store unchanged. -/
theorem c6_witness :
    RegisterUser [] 1 5 regCandidate =
      (Except.ok { regCandidate with id := 1, createdAt := 5, updatedAt := 5 },
       [{ regCandidate with id := 1, createdAt := 5, updatedAt := 5 }]) ∧
    RegisterUser [{ regCandidate with id := 1, createdAt := 5, updatedAt := 5 }] 2 6
        regCandidate =
      (Except.error Err.emailAlreadyExists,
       [{ regCandidate with id := 1, createdAt := 5, updatedAt := 5 }]) := by
  constructor
  · exact (c6_register_user_unique_email [] 1 5 regCandidate rfl).1 (by simp)
  · exact (c6_register_user_unique_email
      [{ regCandidate with id := 1, createdAt := 5, updatedAt := 5 }] 2 6 regCandidate
      rfl).2 ⟨{ regCandidate with id := 1, createdAt := 5, updatedAt := 5 },
              List.mem_singleton.mpr rfl, rfl⟩

/-- C7: an update that keeps the own current email of a stored user with a
non-nil identifier never fails with ErrEmailAlreadyExists, on the full
UpdateUser path and on the partial UpdateUserFields path alike: the
uniqueness check excludes the identifier being updated, so the user does
not collide with itself. -/
theorem c7_own_email_does_not_self_collide
    (users : List User) (u : User) (repl : User) (fields : Fields) (now : Time)
    (hmem : u ∈ users) (hid : u.id ≠ nilUUID)
    (huniq : ∀ v ∈ users, v.email = u.email → v = u)
    (hrepl : repl.email = u.email)
    (hf : fieldsGet fields "email" = some (FieldVal.str u.email))
    (hvalid : IsEmailValid u.email = none) :
    (UpdateUser users u.id repl now).1 ≠ Except.error Err.emailAlreadyExists ∧
    ∃ res, UpdateUserFields users u.id fields now = some res ∧
      res.1 ≠ Except.error Err.emailAlreadyExists := by
  have hself := usersFindByEmail_self users u hmem huniq
  have hinuse : IsEmailInUse users u.email u.id = .ok false := by
    simp [IsEmailInUse, hself, hid]
  constructor
  · have hvalid2 : IsEmailValid repl.email = none := by rw [hrepl]; exact hvalid
    have hinuse2 : IsEmailInUse users repl.email u.id = Except.ok false := by
      rw [hrepl]; exact hinuse
    simp only [UpdateUser, hvalid2, hinuse2]
    cases usersUpdate users u.id { repl with id := u.id, updatedAt := now } with
    | error e => simp
    | ok users2 => simp
  · simp only [UpdateUserFields, hf, hvalid, hinuse]
    refine ⟨_, rfl, ?_⟩
    cases usersUpdateFields users u.id (fieldsSet fields "updated_at" (.time now)) with
    | error e => simp
    | ok p => simp

/-- Witness for C7: alice, stored alone, keeps her own email through both
update paths without an ErrEmailAlreadyExists failure. -/
theorem c7_witness :
    (UpdateUser [sampleUser] sampleUser.id { sampleUser with username := "alice2" } 9).1
      ≠ Except.error Err.emailAlreadyExists ∧
    ∃ res, UpdateUserFields [sampleUser] sampleUser.id
        [("email", FieldVal.str sampleUser.email)] 9 = some res ∧
      res.1 ≠ Except.error Err.emailAlreadyExists :=
  c7_own_email_does_not_self_collide [sampleUser] sampleUser
    { sampleUser with username := "alice2" } [("email", FieldVal.str sampleUser.email)] 9
    (by decide) (by decide) (by decide) rfl rfl rfl

/-- C8: FindUserTasks fails with ErrUserNotFound when no stored user has
the identifier, fails with ErrNoTasksFound when such a user exists but
owns no task, and the two sentinel errors are distinct, so callers can
tell the failures apart. -/
theorem c8_find_user_tasks_distinguishes
    (users : List User) (tasks : List Task) (userID : UUID) :
    ((∀ u ∈ users, u.id ≠ userID) →
       FindUserTasks users tasks userID = Except.error Err.userNotFound) ∧
    ((∃ u ∈ users, u.id = userID) → (∀ t ∈ tasks, t.userID ≠ userID) →
       FindUserTasks users tasks userID = Except.error Err.noTasksFound) ∧
    Err.userNotFound ≠ Err.noTasksFound := by
  refine ⟨?_, ?_, by decide⟩
  · intro h
    simp [FindUserTasks, userExists_false users userID h]
  · intro hex hno
    have hfilter : tasksFindUserTasks tasks userID = [] := by
      simp only [tasksFindUserTasks, List.filter_eq_nil_iff]
      intro t ht
      simpa using hno t ht
    simp [FindUserTasks, userExists_true users userID hex, hfilter]

/-- Witness for C8: a missing user gives ErrUserNotFound, a stored user
with an empty task store gives ErrNoTasksFound. -/
theorem c8_witness :
    FindUserTasks [] [] 3 = Except.error Err.userNotFound ∧
    FindUserTasks [sampleUser] [] 1 = Except.error Err.noTasksFound :=
  ⟨(c8_find_user_tasks_distinguishes [] [] 3).1 (by simp),
   (c8_find_user_tasks_distinguishes [sampleUser] [] 1).2.1
     ⟨sampleUser, List.mem_singleton.mpr rfl, rfl⟩ (by simp)⟩

/-- C9: when no stored user has the identifier, CreateTask fails with
ErrUserNotFound and the task store is returned unchanged: the repository
Save is never reached. -/
theorem c9_create_task_missing_user
    (users : List User) (tasks : List Task) (userID freshID : UUID)
    (now : Time) (task : Task)
    (h : ∀ u ∈ users, u.id ≠ userID) :
    CreateTask users tasks userID freshID now task =
      (Except.error Err.userNotFound, tasks) := by
  simp [CreateTask, userExists_false users userID h]

/-- Witness for C9: creating a task for user 3 on an empty user store. -/
theorem c9_witness :
    CreateTask [] [sampleTask] 3 9 5 sampleRepl =
      (Except.error Err.userNotFound, [sampleTask]) :=
  c9_create_task_missing_user [] [sampleTask] 3 9 5 sampleRepl (by simp)

/-- C10: a successful UpdateTask persists a record whose title, description
and completed come from the replacement while id, userID, createdAt and
updatedAt are the ones of the previously stored record, and every record
in the resulting store is either an unchanged pre-existing one or that
updated record: at most the three content fields of the addressed task
change. -/
theorem c10_update_task_preserves_owner_and_created_at
    (users : List User) (tasks : List Task) (userID taskID : UUID) (repl old : Task)
    (hnil : taskID ≠ nilUUID) (huser : userExists users userID = true)
    (hold : tasksFindTaskByID tasks taskID = Except.ok old) :
    ∃ tasks2,
      UpdateTask users tasks userID taskID repl = (Except.ok (), tasks2) ∧
      tasksFindTaskByID tasks2 taskID = Except.ok
        { old with title := repl.title, descr := repl.descr,
                   completed := repl.completed } ∧
      ({ old with title := repl.title, descr := repl.descr,
                  completed := repl.completed } : Task).userID = old.userID ∧
      ({ old with title := repl.title, descr := repl.descr,
                  completed := repl.completed } : Task).createdAt = old.createdAt ∧
      ∀ t ∈ tasks2, t ∈ tasks ∨
        t = { old with title := repl.title, descr := repl.descr,
                       completed := repl.completed } := by
  obtain ⟨tasks2, hu, hf, hframe⟩ := tasksUpdate_of_find tasks taskID old
    { old with title := repl.title, descr := repl.descr, completed := repl.completed }
    hold
  refine ⟨tasks2, ?_, hf, rfl, rfl, hframe⟩
  rw [UpdateTask, if_neg hnil, huser]
  simp only [Bool.not_true, Bool.false_eq_true, if_false, taskExists, hold, hu]

/-- Witness for C10: updating the second of two stored tasks. -/
theorem c10_witness :
    ∃ tasks2,
      UpdateTask [sampleUser] [sampleTask, sampleTask2] 1 3 sampleRepl =
        (Except.ok (), tasks2) ∧
      tasksFindTaskByID tasks2 3 = Except.ok
        { sampleTask2 with title := sampleRepl.title, descr := sampleRepl.descr,
                           completed := sampleRepl.completed } ∧
      ({ sampleTask2 with title := sampleRepl.title, descr := sampleRepl.descr,
                          completed := sampleRepl.completed } : Task).userID
        = sampleTask2.userID ∧
      ({ sampleTask2 with title := sampleRepl.title, descr := sampleRepl.descr,
                          completed := sampleRepl.completed } : Task).createdAt
        = sampleTask2.createdAt ∧
      ∀ t ∈ tasks2, t ∈ [sampleTask, sampleTask2] ∨
        t = { sampleTask2 with title := sampleRepl.title, descr := sampleRepl.descr,
                               completed := sampleRepl.completed } :=
  c10_update_task_preserves_owner_and_created_at [sampleUser] [sampleTask, sampleTask2]
    1 3 sampleRepl sampleTask2 (by decide) rfl rfl

end GoToStudy
